import Mathlib

/-!
Verification development for the VO-SE Pro synthesis core.

The embedding follows the most complete drafts of the render pipeline:

* `src/unnamed/part_005` — `load_embedded_resource`, and the orchestration of
  `execute_render` (buffer sizing, skip-and-advance for unresolved sources,
  cumulative write offsets, final bounds check before each write);
* `src/src/vose_core.cpp` — the per-frame expression-shaping loop of
  `execute_render` (formant shift, tension scaling, breath boost, starting at
  frequency bin 1).

C `double` arithmetic is modelled exactly over `ℚ` via `fl`, which rounds a
rational to the nearest IEEE-754 binary64 value (round-to-nearest, ties to
even; the values arising here are all normal and far from overflow).  The C
cast `(int)`/`(int64_t)` of a double is truncation toward zero, modelled by
`cTrunc`.  The external WORLD library calls (`CheapTrick`, `D4C`,
`Synthesis`, `wavwrite`) are not part of this repository; where a claim only
needs their interface contract they appear as explicit function parameters.
-/

-- Batteries marks the rational arithmetic operations irreducible, which
-- blocks concrete evaluation by `decide`; restore the default reducibility
-- for this development (proofs are unaffected).
attribute [local semireducible] Rat.mul Rat.inv Rat.add Rat.sub Rat.ofScientific

set_option maxRecDepth 100000

/-- Truncation toward zero of a rational, the semantics of a C cast from
`double` to an integer type (C17 6.3.1.4: the fractional part is discarded). -/
def cTrunc (q : ℚ) : ℤ :=
  if q < 0 then -⌊-q⌋ else ⌊q⌋

/-- Scales a nonnegative rational by a power of two into the binade
`[2^52, 2^53)`, returning the scaled significand together with the binary
exponent taken.  Structural fuel keeps the definition total; `200` steps cover
every magnitude produced by this code base.  A zero input never stabilises and
simply returns `0`, which is then rounded to `0`. -/
def flScale : ℕ → ℚ → ℚ × ℤ
  | 0, q => (q, 0)
  | fuel + 1, q =>
    if q < 2 ^ 52 then
      let p := flScale fuel (q * 2)
      (p.1, p.2 - 1)
    else if 2 ^ 53 ≤ q then
      let p := flScale fuel (q / 2)
      (p.1, p.2 + 1)
    else (q, 0)

/-- Rounds a rational to the nearest integer, ties to even — the IEEE-754
default rounding attribute. -/
def roundTiesEven (m : ℚ) : ℤ :=
  if m - ⌊m⌋ < 1 / 2 then ⌊m⌋
  else if 1 / 2 < m - ⌊m⌋ then ⌊m⌋ + 1
  else if ⌊m⌋ % 2 = 0 then ⌊m⌋ else ⌊m⌋ + 1

/-- Rounds a nonnegative rational to the nearest IEEE-754 binary64 value. -/
def flPos (q : ℚ) : ℚ :=
  let p := flScale 200 q
  (roundTiesEven p.1 : ℚ) * 2 ^ p.2

/-- Rounds a rational to the nearest IEEE-754 binary64 value (round to
nearest, ties to even), assuming normal range — exact for every intermediate
double computed by the render code. -/
def fl (q : ℚ) : ℚ :=
  if q < 0 then -flPos (-q) else flPos q

/-- Per-note segment sample count, from `src/unnamed/part_005` (the identical
expression appears at lines 55, 68 and 131) and `src/src/vose_core.cpp`
(lines 63 and 123):
`(int)((pitch_length - 1) * frame_period / 1000.0 * fs) + 1` with
`frame_period = 5.0` and `fs = 44100`.  The subtraction `pitch_length - 1`
happens in exact `int` arithmetic and its conversion to `double` is exact for
every 32-bit `int`; each subsequent `double` operation rounds via `fl`, and
the final cast truncates toward zero. -/
def note_samples (pl : ℤ) : ℤ :=
  cTrunc (fl (fl (fl (((pl : ℚ) - 1) * 5) / 1000) * 44100)) + 1

/-!
Expression shaping, from `src/src/vose_core.cpp`, `execute_render` lines
101–120.  A spectral row of length `spec_bins` is modelled as a function
`ℕ → ℚ` read at indices below `spec_bins`; indices the loop does not touch
keep their value.  The loop body at index `k` writes only `spec_data[j][k]`
and `ap_data[j][k]` while reading the fixed pre-shift copy `org_spec`
(taken before the `k` loop) and `ap_data[j][k]` itself, so the fused C loop
equals the composition of the three per-bin steps below.  The shaping
arithmetic is modelled in exact rational arithmetic: the claims settled
against it concern which bins are touched, the interpolation structure,
identities and monotonicity, all of which are insensitive to the `double`
rounding of each operation. -/

/-- Formant shift (gender), `vose_core.cpp` lines 107–115: per bin
`k = 1 … spec_bins-1`, resample from the pre-shift row copy `org_spec` at
`source_k = k * (1 + shift)`, `shift = (g_val - 0.5) * 0.4`; the C index
cast `(int)source_k` is `cTrunc` (equal to the floor since `source_k ≥ 0`
whenever `g_val ≥ -2`; the negative-index reads that a hugely negative
gender value would cause in C are clamped to bin 0 by `Int.toNat`). -/
def gender_shift (spec_bins : ℕ) (g_val : ℚ) (org_spec : ℕ → ℚ) (k : ℕ) : ℚ :=
  if 1 ≤ k ∧ k < spec_bins then
    let shift : ℚ := (g_val - 0.5) * 0.4
    let source_k : ℚ := (k : ℚ) * (1 + shift)
    let k_idx : ℤ := cTrunc source_k
    let frac : ℚ := source_k - (k_idx : ℚ)
    if k_idx < (spec_bins : ℤ) - 1 then
      (1 - frac) * org_spec k_idx.toNat + frac * org_spec (k_idx.toNat + 1)
    else org_spec k
  else org_spec k

/-- Tension (edge boost), `vose_core.cpp` line 117: per bin
`k = 1 … spec_bins-1`, multiply by `1 + (t_val - 0.5) * (k / spec_bins)`. -/
def tension_scale (spec_bins : ℕ) (t_val : ℚ) (env : ℕ → ℚ) (k : ℕ) : ℚ :=
  if 1 ≤ k ∧ k < spec_bins then
    env k * (1 + (t_val - 0.5) * ((k : ℚ) / (spec_bins : ℚ)))
  else env k

/-- Breath (aperiodicity boost), `vose_core.cpp` line 118: per bin
`k = 1 … spec_bins-1`, `min(1.0, ap[k] + b_val * (k / spec_bins))`. -/
def breath_boost (spec_bins : ℕ) (b_val : ℚ) (ap : ℕ → ℚ) (k : ℕ) : ℚ :=
  if 1 ≤ k ∧ k < spec_bins then
    min 1 (ap k + b_val * ((k : ℚ) / (spec_bins : ℚ)))
  else ap k

/-- One shaped envelope row: the formant shift from the pre-shift copy,
then the tension scaling of the shifted value — the order of lines 107–117
of `vose_core.cpp`. -/
def shape_env (spec_bins : ℕ) (g_val t_val : ℚ) (org_spec : ℕ → ℚ) : ℕ → ℚ :=
  tension_scale spec_bins t_val (gender_shift spec_bins g_val org_spec)

/-- One shaped aperiodicity row (line 118 of `vose_core.cpp`). -/
def shape_ap (spec_bins : ℕ) (b_val : ℚ) (ap : ℕ → ℚ) : ℕ → ℚ :=
  breath_boost spec_bins b_val ap

/-!
Data model and render orchestration, from `src/unnamed/part_000` (the
`NoteEvent` struct shared with the GUI) and `src/unnamed/part_005`
(`load_embedded_resource` and `execute_render`).  Nullable C pointers are
`Option`; the voice database `g_voice_db` (a `std::map`) is a lookup
function; the curves, which in C are bare pointers whose usable length is
not part of the interface, are lists so that an out-of-bounds read is
observable in the model.  The per-note DSP chain between the database
lookup and the buffer write (`CheapTrick`, `D4C` — external WORLD library
calls — the shaping loop, and `Synthesis`) is abstracted as the `synth`
parameter; the orchestration claims use only the WORLD `Synthesis`
interface contract that it writes exactly the requested number of samples
at the pointer it is given.  `execute_render` returns the sample buffer it
hands to the `wavwrite` collaborator, `none` when the C code returns
without writing anything.
-/

/-- The `NoteEvent` struct of `src/unnamed/part_000` (note: it has no
start-time field; placement in the output cannot depend on one). -/
structure NoteEvent where
  wav_path : Option String
  pitch_curve : List ℚ
  pitch_length : ℤ
  gender_curve : List ℚ
  tension_curve : List ℚ
  breath_curve : List ℚ
deriving DecidableEq

/-- The `EmbeddedVoice` record of `src/unnamed/part_005` lines 16–19. -/
structure EmbeddedVoice where
  waveform : List ℚ
  fs : ℤ
deriving DecidableEq

/-- The in-memory voice database `g_voice_db` of `part_005` line 20. -/
def VoiceDb : Type := String → Option EmbeddedVoice

/-- `load_embedded_resource`, `src/unnamed/part_005` lines 27–40: validate,
convert PCM16 to `[-1, 1)` by dividing by `32768.0`, store under the
phoneme key (replacing any previous entry).  The loop reads `raw_data[i]`
for every `i < sample_count`; a read past the supplied buffer (undefined
behaviour in C) is modelled by `List.getD`'s default. -/
def load_embedded_resource (phoneme : Option String) (raw_data : Option (List ℤ))
    (sample_count : ℤ) (db : VoiceDb) : VoiceDb :=
  match phoneme, raw_data with
  | some p, some raw =>
    if sample_count ≤ 0 then db
    else fun key =>
      if key = p then
        some { waveform := (List.range sample_count.toNat).map
                 fun i => ((raw.getD i 0 : ℚ)) / 32768
               fs := 44100 }
      else db key
  | _, _ => db

/-- Database lookup for one note, `part_005` line 66: a null `wav_path` or
an absent key both fail to resolve. -/
def resolve (db : VoiceDb) (n : NoteEvent) : Option EmbeddedVoice :=
  match n.wav_path with
  | none => none
  | some key => db key

/-- Overwrites `seg.length` samples of `buf` starting at `off` — the effect
of handing `&full_song_buffer[current_offset]` to WORLD `Synthesis`, which
writes exactly the requested sample count there.  Meaningful when
`off + seg.length ≤ buf.length`, which the render's bounds check (line 132)
guarantees at every call site. -/
def writeAt (buf : List ℚ) (off : ℕ) (seg : List ℚ) : List ℚ :=
  buf.take off ++ seg ++ buf.drop (off + seg.length)

/-- Total output size, `part_005` lines 53–56: the sum over all notes of
the per-note segment sample count (the same `note_samples` expression). -/
def total_samples_required (notes : List NoteEvent) : ℤ :=
  (notes.map fun n => note_samples n.pitch_length).sum

/-- One iteration of the main synthesis loop, `part_005` lines 62–136:
an unresolved source advances the offset by the note's own sample count
(silence insertion, lines 66–70); a resolved one synthesizes into the
buffer at the running offset and advances it, guarded by the final bounds
check `current_offset + note_samples <= total_samples_required`
(lines 131–135). -/
def renderStep (db : VoiceDb) (synth : NoteEvent → EmbeddedVoice → List ℚ)
    (total : ℤ) (st : List ℚ × ℤ) (n : NoteEvent) : List ℚ × ℤ :=
  match resolve db n with
  | none => (st.1, st.2 + note_samples n.pitch_length)
  | some ev =>
      if st.2 + note_samples n.pitch_length ≤ total then
        (writeAt st.1 st.2.toNat (synth n ev), st.2 + note_samples n.pitch_length)
      else st

/-- `execute_render`, `src/unnamed/part_005` lines 45–140: validate, build
the zero-initialized output buffer of `total_samples_required` samples,
run the synthesis loop from offset `0`, return the buffer handed to
`wavwrite`. -/
def execute_render (db : VoiceDb) (synth : NoteEvent → EmbeddedVoice → List ℚ)
    (notes : List NoteEvent) : Option (List ℚ) :=
  if notes.isEmpty then none
  else
    some (notes.foldl (renderStep db synth (total_samples_required notes))
      (List.replicate (total_samples_required notes).toNat 0, 0)).1

/-- The slice of the output buffer belonging to one note: its synthesized
segment when its source resolves, silence of the same length otherwise. -/
def segBlock (db : VoiceDb) (synth : NoteEvent → EmbeddedVoice → List ℚ)
    (n : NoteEvent) : List ℚ :=
  match resolve db n with
  | none => List.replicate (note_samples n.pitch_length).toNat 0
  | some ev => synth n ev

/-!
Analysis cache.  The cached-analysis design is declared but not implemented
under `src/`: `src/src/vose_core.cpp` lines 15–22 declare the
`spectrogram`/`aperiodicity` fields of the per-phoneme `VoiceSample` record,
and the comment at lines 44–47 states that the startup CheapTrick/D4C
analysis is elided there for brevity ("解析コードを省略") and in reality is
stored into `g_voice_db`.  The operation is therefore modelled from the
spec (§4.3). -/

/-- The memoization table of the Analysis Cache: envelope and aperiodicity
matrices keyed by source reference. -/
abbrev AnalysisCache := List (String × (List (List ℚ) × List (List ℚ)))

/-- Modelled from the spec: `get_or_compute` of §4.3 — the analysis cache
whose body is omitted from `src/` (only the `VoiceSample` declaration and
the elision comment in `vose_core.cpp` lines 15–22 and 44–47 remain).
Returns the cached pair when `source_ref` was analyzed before, regardless
of the requesting note's waveform or time axis — the cache key is
`source_ref` only; otherwise invokes the analyzer, stores the result, and
returns it. -/
def get_or_compute (cache : AnalysisCache) (source_ref : String)
    (waveform time_axis : List ℚ)
    (analyzer : List ℚ → List ℚ → List (List ℚ) × List (List ℚ)) :
    (List (List ℚ) × List (List ℚ)) × AnalysisCache :=
  match cache.lookup source_ref with
  | some a => (a, cache)
  | none =>
      (analyzer waveform time_axis,
        (source_ref, analyzer waveform time_axis) :: cache)

/-- The per-frame curve reads of the shaping loop, `src/unnamed/part_005`
lines 103–106 (equally `vose_core.cpp` lines 101–104): for every frame
`j < pitch_length` the loop reads `gender_curve[j]`, `tension_curve[j]` and
`breath_curve[j]` unconditionally, with no curve-length check anywhere in
the function; a lookup result of `none` is a read past the end of the
supplied curve — an out-of-bounds pointer read in C. -/
def curve_reads (n : NoteEvent) : List (Option ℚ × Option ℚ × Option ℚ) :=
  (List.range n.pitch_length.toNat).map fun j =>
    (n.gender_curve.get? j, n.tension_curve.get? j, n.breath_curve.get? j)

/-! Concrete inputs used to instantiate the theorems below. -/

/-- A two-sample voice store holding the single phoneme key `a`. -/
def demo_db : VoiceDb :=
  fun key => if key = "a" then some { waveform := [0, 0], fs := 44100 } else none

/-- A synthesizer stub satisfying the WORLD `Synthesis` size contract:
it writes exactly the requested sample count. -/
def demo_synth : NoteEvent → EmbeddedVoice → List ℚ :=
  fun n _ => List.replicate (note_samples n.pitch_length).toNat 1

/-- A well-formed one-frame note whose source resolves in `demo_db`. -/
def demo_note : NoteEvent :=
  { wav_path := some "a"
    pitch_curve := [200]
    pitch_length := 1
    gender_curve := [0.5]
    tension_curve := [0.5]
    breath_curve := [0] }

/-- A one-frame note whose source reference is absent from `demo_db`. -/
def missing_note : NoteEvent :=
  { wav_path := some "zzz"
    pitch_curve := [200]
    pitch_length := 1
    gender_curve := [0.5]
    tension_curve := [0.5]
    breath_curve := [0] }

/-- A note whose gender curve (one element) is shorter than its two-frame
pitch curve. -/
def mismatched_note : NoteEvent :=
  { wav_path := some "a"
    pitch_curve := [200, 200]
    pitch_length := 2
    gender_curve := [0.5]
    tension_curve := [0.5, 0.5]
    breath_curve := [0, 0] }

/-- The empty voice store. -/
def emptyDb : VoiceDb := fun _ => none

/-- A concrete analyzer for exercising the cache. -/
def analyzerA : List ℚ → List ℚ → List (List ℚ) × List (List ℚ) :=
  fun w t => ([w], [t])

/-- A second, different analyzer: the cache must not invoke it on a hit. -/
def analyzerB : List ℚ → List ℚ → List (List ℚ) × List (List ℚ) :=
  fun _ _ => ([], [])

lemma flScale_fst_nonneg (fuel : ℕ) (q : ℚ) (h : 0 ≤ q) :
    0 ≤ (flScale fuel q).1 := by
  induction fuel generalizing q with
  | zero => simpa [flScale] using h
  | succ n ih =>
      simp only [flScale]
      split
      · exact ih (q * 2) (by positivity)
      · split
        · exact ih (q / 2) (by positivity)
        · simpa using h

lemma roundTiesEven_nonneg (m : ℚ) (h : 0 ≤ m) : 0 ≤ roundTiesEven m := by
  have hf : 0 ≤ ⌊m⌋ := Int.floor_nonneg.mpr h
  unfold roundTiesEven
  split
  · exact hf
  · split
    · omega
    · split
      · exact hf
      · omega

lemma cTrunc_nonneg (q : ℚ) (h : 0 ≤ q) : 0 ≤ cTrunc q := by
  unfold cTrunc
  split
  · next h' => exact absurd h' (not_lt.mpr h)
  · exact Int.floor_nonneg.mpr h

lemma cTrunc_eq_floor (q : ℚ) (h : 0 ≤ q) : cTrunc q = ⌊q⌋ := by
  unfold cTrunc
  split
  · next h' => exact absurd h' (not_lt.mpr h)
  · rfl

lemma flPos_nonneg (q : ℚ) (h : 0 ≤ q) : 0 ≤ flPos q := by
  unfold flPos
  have h1 : 0 ≤ (roundTiesEven (flScale 200 q).1 : ℚ) := by
    exact_mod_cast roundTiesEven_nonneg _ (flScale_fst_nonneg 200 q h)
  have h2 : (0 : ℚ) < 2 ^ (flScale 200 q).2 := by positivity
  exact mul_nonneg h1 h2.le

lemma fl_nonneg (q : ℚ) (h : 0 ≤ q) : 0 ≤ fl q := by
  unfold fl
  split
  · next h' => exact absurd h' (not_lt.mpr h)
  · exact flPos_nonneg q h

lemma gender_shift_eq (spec_bins k : ℕ) (g_val : ℚ) (org_spec : ℕ → ℚ)
    (h1 : 1 ≤ k) (h2 : k < spec_bins) :
    gender_shift spec_bins g_val org_spec k =
      if cTrunc ((k : ℚ) * (1 + (g_val - 0.5) * 0.4)) < (spec_bins : ℤ) - 1 then
        (1 - ((k : ℚ) * (1 + (g_val - 0.5) * 0.4)
            - (cTrunc ((k : ℚ) * (1 + (g_val - 0.5) * 0.4)) : ℚ)))
          * org_spec (cTrunc ((k : ℚ) * (1 + (g_val - 0.5) * 0.4))).toNat
        + ((k : ℚ) * (1 + (g_val - 0.5) * 0.4)
            - (cTrunc ((k : ℚ) * (1 + (g_val - 0.5) * 0.4)) : ℚ))
          * org_spec ((cTrunc ((k : ℚ) * (1 + (g_val - 0.5) * 0.4))).toNat + 1)
      else org_spec k := by
  rw [gender_shift, if_pos ⟨h1, h2⟩]

lemma note_samples_pos (pl : ℤ) (h : 1 ≤ pl) : 1 ≤ note_samples pl := by
  have h0 : (0 : ℚ) ≤ ((pl : ℚ) - 1) * 5 := by
    have : (1 : ℚ) ≤ (pl : ℚ) := by exact_mod_cast h
    nlinarith
  have h1 : 0 ≤ fl (((pl : ℚ) - 1) * 5) := fl_nonneg _ h0
  have h2 : 0 ≤ fl (fl (((pl : ℚ) - 1) * 5) / 1000) := fl_nonneg _ (by positivity)
  have h3 : 0 ≤ fl (fl (fl (((pl : ℚ) - 1) * 5) / 1000) * 44100) :=
    fl_nonneg _ (by positivity)
  have := cTrunc_nonneg _ h3
  unfold note_samples
  omega

lemma sum_note_samples_nonneg (l : List NoteEvent)
    (h : ∀ n ∈ l, 1 ≤ n.pitch_length) :
    0 ≤ (l.map fun n => note_samples n.pitch_length).sum := by
  induction l with
  | nil => simp
  | cons n l ih =>
      have h1 := note_samples_pos n.pitch_length (h n (List.mem_cons_self n l))
      have h2 := ih fun m hm => h m (List.mem_cons_of_mem n hm)
      simp only [List.map_cons, List.sum_cons]
      omega

lemma render_fold_spec (db : VoiceDb) (synth : NoteEvent → EmbeddedVoice → List ℚ) :
    ∀ (l : List NoteEvent) (A : List ℚ) (total : ℤ),
      (∀ n ∈ l, 1 ≤ n.pitch_length) →
      (∀ n ∈ l, ∀ ev, (synth n ev).length = (note_samples n.pitch_length).toNat) →
      total = (A.length : ℤ) + (l.map fun n => note_samples n.pitch_length).sum →
      l.foldl (renderStep db synth total)
          (A ++ List.replicate ((l.map fun n => note_samples n.pitch_length).sum).toNat 0,
            (A.length : ℤ))
        = (A ++ (l.map (segBlock db synth)).flatten,
            (A.length : ℤ) + (l.map fun n => note_samples n.pitch_length).sum) := by
  intro l
  induction l with
  | nil => intro A total _ _ _; simp
  | cons n l ih =>
      intro A total h1 h2 htot
      have hmem : n ∈ n :: l := List.mem_cons_self n l
      have hns : 1 ≤ note_samples n.pitch_length :=
        note_samples_pos n.pitch_length (h1 n hmem)
      have h1' : ∀ m ∈ l, 1 ≤ m.pitch_length :=
        fun m hm => h1 m (List.mem_cons_of_mem n hm)
      have h2' : ∀ m ∈ l, ∀ ev, (synth m ev).length = (note_samples m.pitch_length).toNat :=
        fun m hm => h2 m (List.mem_cons_of_mem n hm)
      have hS' : 0 ≤ (l.map fun m => note_samples m.pitch_length).sum :=
        sum_note_samples_nonneg l h1'
      have hsum : ((n :: l).map fun m => note_samples m.pitch_length).sum
          = note_samples n.pitch_length + (l.map fun m => note_samples m.pitch_length).sum := by
        simp
      have htn : (note_samples n.pitch_length
            + (l.map fun m => note_samples m.pitch_length).sum).toNat
          = (note_samples n.pitch_length).toNat
            + ((l.map fun m => note_samples m.pitch_length).sum).toNat := by
        omega
      have hrep : List.replicate (((n :: l).map fun m => note_samples m.pitch_length).sum).toNat
            (0 : ℚ)
          = List.replicate (note_samples n.pitch_length).toNat 0
            ++ List.replicate ((l.map fun m => note_samples m.pitch_length).sum).toNat 0 := by
        rw [hsum, htn, List.replicate_add]
      rw [List.foldl_cons]
      cases hres : resolve db n with
      | none =>
          have hstep : renderStep db synth total
                (A ++ List.replicate
                  (((n :: l).map fun m => note_samples m.pitch_length).sum).toNat 0,
                  (A.length : ℤ)) n
              = ((A ++ List.replicate (note_samples n.pitch_length).toNat 0)
                  ++ List.replicate ((l.map fun m => note_samples m.pitch_length).sum).toNat 0,
                  ((A ++ List.replicate (note_samples n.pitch_length).toNat 0).length : ℤ)) := by
            simp only [renderStep, hres, hrep, List.append_assoc, List.length_append,
              List.length_replicate]
            simp only [Prod.mk.injEq, List.length_append, List.length_replicate]
            refine ⟨by trivial, ?_⟩
            omega
          rw [hstep]
          have htot' : total
              = ((A ++ List.replicate (note_samples n.pitch_length).toNat 0).length : ℤ)
                + (l.map fun m => note_samples m.pitch_length).sum := by
            rw [htot, hsum]
            simp only [List.length_append, List.length_replicate]
            omega
          rw [ih (A ++ List.replicate (note_samples n.pitch_length).toNat 0) total h1' h2' htot']
          simp only [List.map_cons, List.flatten_cons, segBlock, hres, List.append_assoc,
            List.length_append, List.length_replicate, List.sum_cons]
          simp only [Prod.mk.injEq, List.length_append, List.length_replicate]
          refine ⟨by trivial, ?_⟩
          omega
      | some ev =>
          have hlen : (synth n ev).length = (note_samples n.pitch_length).toNat :=
            h2 n hmem ev
          have hguard : (A.length : ℤ) + note_samples n.pitch_length ≤ total := by
            rw [htot, hsum]
            omega
          have htake : List.take (A.length : ℤ).toNat
                (A ++ List.replicate
                  (((n :: l).map fun m => note_samples m.pitch_length).sum).toNat 0)
              = A := by
            rw [Int.toNat_natCast]
            exact List.take_left' rfl
          have hdrop : List.drop ((A.length : ℤ).toNat + (synth n ev).length)
                (A ++ List.replicate
                  (((n :: l).map fun m => note_samples m.pitch_length).sum).toNat 0)
              = List.replicate ((l.map fun m => note_samples m.pitch_length).sum).toNat 0 := by
            rw [Int.toNat_natCast, hlen, hrep, ← List.append_assoc]
            exact List.drop_left' (by simp)
          have hstep : renderStep db synth total
                (A ++ List.replicate
                  (((n :: l).map fun m => note_samples m.pitch_length).sum).toNat 0,
                  (A.length : ℤ)) n
              = ((A ++ synth n ev)
                  ++ List.replicate ((l.map fun m => note_samples m.pitch_length).sum).toNat 0,
                  ((A ++ synth n ev).length : ℤ)) := by
            simp only [renderStep, hres, if_pos hguard, writeAt]
            rw [htake, hdrop]
            simp only [List.append_assoc, List.length_append, hlen]
            simp only [Prod.mk.injEq, List.length_append, List.length_replicate]
            refine ⟨by trivial, ?_⟩
            omega
          rw [hstep]
          have htot' : total = ((A ++ synth n ev).length : ℤ)
              + (l.map fun m => note_samples m.pitch_length).sum := by
            rw [htot, hsum]
            simp only [List.length_append, hlen]
            omega
          rw [ih (A ++ synth n ev) total h1' h2' htot']
          simp only [List.map_cons, List.flatten_cons, segBlock, hres, List.append_assoc,
            List.length_append, hlen, List.sum_cons]
          simp only [Prod.mk.injEq, List.length_append, List.length_replicate]
          refine ⟨by trivial, ?_⟩
          omega

lemma segBlock_length (db : VoiceDb) (synth : NoteEvent → EmbeddedVoice → List ℚ)
    (n : NoteEvent)
    (h : ∀ ev, (synth n ev).length = (note_samples n.pitch_length).toNat) :
    (segBlock db synth n).length = (note_samples n.pitch_length).toNat := by
  unfold segBlock
  cases resolve db n with
  | none => simp
  | some ev => exact h ev

lemma execute_render_eq_flatten (db : VoiceDb)
    (synth : NoteEvent → EmbeddedVoice → List ℚ) (notes : List NoteEvent)
    (h1 : ∀ n ∈ notes, 1 ≤ n.pitch_length)
    (h2 : ∀ n ∈ notes, ∀ ev, (synth n ev).length = (note_samples n.pitch_length).toNat)
    (h3 : notes ≠ []) :
    execute_render db synth notes = some ((notes.map (segBlock db synth)).flatten) := by
  have hfold := render_fold_spec db synth notes [] (total_samples_required notes) h1 h2
    (by simp [total_samples_required])
  unfold execute_render
  rw [if_neg (by simpa using h3)]
  simp only [List.nil_append, List.length_nil, Nat.cast_zero] at hfold
  simp only [total_samples_required] at hfold ⊢
  rw [hfold]

/-- C2: for every ordered note sequence, `execute_render` allocates a
zero-initialized buffer of the summed per-note segment sample counts (its
definition builds `List.replicate (total_samples_required notes).toNat 0`),
and the final buffer is exactly the concatenation of the per-note blocks in
note order — each note's segment sits at the cumulative offset of the
preceding notes' segment lengths.  The `NoteEvent` struct of `part_000`
carries no start-time field, so no offset can be derived from one. -/
theorem render_sequential_layout (db : VoiceDb)
    (synth : NoteEvent → EmbeddedVoice → List ℚ) (notes : List NoteEvent)
    (h1 : ∀ n ∈ notes, 1 ≤ n.pitch_length)
    (h2 : ∀ n ∈ notes, ∀ ev, (synth n ev).length = (note_samples n.pitch_length).toNat)
    (h3 : notes ≠ []) :
    execute_render db synth notes = some ((notes.map (segBlock db synth)).flatten)
    ∧ ((notes.map (segBlock db synth)).flatten).length
        = (notes.map fun n => (note_samples n.pitch_length).toNat).sum
    ∧ ∀ n ∈ notes, (segBlock db synth n).length = (note_samples n.pitch_length).toNat := by
  refine ⟨execute_render_eq_flatten db synth notes h1 h2 h3, ?_, ?_⟩
  · rw [List.length_flatten, List.map_map]
    exact congrArg List.sum
      (List.map_congr_left fun n hn => segBlock_length db synth n (h2 n hn))
  · exact fun n hn => segBlock_length db synth n (h2 n hn)

/-- C2 witness: the layout theorem instantiated at a concrete one-note
render through `demo_db`. -/
theorem render_sequential_layout_witness :
    execute_render demo_db demo_synth [demo_note]
      = some (([demo_note].map (segBlock demo_db demo_synth)).flatten)
    ∧ (([demo_note].map (segBlock demo_db demo_synth)).flatten).length
        = ([demo_note].map fun n => (note_samples n.pitch_length).toNat).sum
    ∧ ∀ n ∈ [demo_note],
        (segBlock demo_db demo_synth n).length = (note_samples n.pitch_length).toNat :=
  render_sequential_layout demo_db demo_synth [demo_note]
    (by decide)
    (by intro n _ ev; simp [demo_synth])
    (by simp)

/-- C3: a note whose `source_ref` does not resolve in the voice store does
not abort the render: the result is still produced, the note's own region
of the buffer is `note_samples` zeros at the cumulative offset (the length
of the preceding notes' blocks), and the remaining notes are laid out
after it — `part_005` lines 66–70. -/
theorem render_skips_unresolved (db : VoiceDb)
    (synth : NoteEvent → EmbeddedVoice → List ℚ)
    (pre post : List NoteEvent) (n : NoteEvent)
    (h1 : ∀ m ∈ pre ++ n :: post, 1 ≤ m.pitch_length)
    (h2 : ∀ m ∈ pre ++ n :: post, ∀ ev,
        (synth m ev).length = (note_samples m.pitch_length).toNat)
    (hn : resolve db n = none) :
    execute_render db synth (pre ++ n :: post)
      = some ((pre.map (segBlock db synth)).flatten
          ++ (List.replicate (note_samples n.pitch_length).toNat 0
            ++ (post.map (segBlock db synth)).flatten)) := by
  have h := execute_render_eq_flatten db synth (pre ++ n :: post) h1 h2 (by simp)
  rw [h]
  simp only [List.map_append, List.map_cons, List.flatten_append, List.flatten_cons]
  have hb : segBlock db synth n = List.replicate (note_samples n.pitch_length).toNat 0 := by
    unfold segBlock
    rw [hn]
  rw [hb]

/-- C3 witness: rendering a single note with an unknown source reference
succeeds and produces its sample count of silence. -/
theorem render_skips_unresolved_witness :
    execute_render demo_db demo_synth ([] ++ missing_note :: [])
      = some (([].map (segBlock demo_db demo_synth)).flatten
          ++ (List.replicate (note_samples missing_note.pitch_length).toNat 0
            ++ ([].map (segBlock demo_db demo_synth)).flatten)) :=
  render_skips_unresolved demo_db demo_synth [] [] missing_note
    (by decide)
    (by intro m _ ev; simp [demo_synth])
    (by decide)

/-- C1 counterexample: at the concrete input of the claim's own scenario —
a note of 100 frames at the fixed 44100 Hz / 5 ms operating point — the
code's segment sample count (`note_samples`, the truncating cast of the
`double` product, identical at every sizing site) is 21830, whereas the
claimed formula `round((frame_count-1) * frame_period_ms / 1000 *
sample_rate) + 1` evaluates to `round(21829.5) + 1 = 21831`.  The claim's
formula and its own stated instance value therefore contradict each other,
and the code implements truncation, not rounding. -/
theorem segment_count_round_cex :
    note_samples 100 = 21830
    ∧ round (((100 : ℚ) - 1) * 5 / 1000 * 44100) + 1 = (21831 : ℤ) := by
  constructor
  · decide
  · norm_num [round_eq]

/-- C1 amended: for every note with `frame_count ≥ 1` the synthesized
segment's sample count is the double-precision evaluation of
`(frame_count - 1) * 5 / 1000 * 44100` truncated toward zero, plus one
(not rounded); it is at least 1; a 100-frame note yields exactly 21830
samples; and the orchestrator's buffer sizing sums the identical per-note
formula (`total_samples_required`). -/
theorem segment_count_formula (pl : ℤ) (notes : List NoteEvent) (h : 1 ≤ pl) :
    note_samples pl
        = cTrunc (fl (fl (fl (((pl : ℚ) - 1) * 5) / 1000) * 44100)) + 1
    ∧ 1 ≤ note_samples pl
    ∧ note_samples 100 = 21830
    ∧ total_samples_required notes
        = (notes.map fun n => note_samples n.pitch_length).sum :=
  ⟨rfl, note_samples_pos pl h, by decide, rfl⟩

/-- C1 witness: the amended formula theorem applied at 100 frames. -/
theorem segment_count_formula_witness : note_samples 100 = 21830 :=
  (segment_count_formula 100 [] (by norm_num)).2.2.1

/-- C4: for every frame and every bin `k ≥ 1`, with `shift =
(gender - 0.5) * 0.4`, the formant step resamples the envelope as a linear
interpolation between bins `⌊k * (1 + shift)⌋` and `⌊k * (1 + shift)⌋ + 1`
of the pre-shift row copy `org_spec` (taken before any bin of the row is
rewritten), and leaves a bin unmodified exactly when the interpolation
would need data at or beyond bin `spec_bins - 1` — the edge clamp, with no
wraparound or extrapolation.  The hypothesis `0 ≤ g_val` (the curve range
is `[0, 1]`) makes the C truncating cast coincide with the floor. -/
theorem formant_shift_resamples (spec_bins : ℕ) (g_val : ℚ) (org_spec : ℕ → ℚ)
    (k : ℕ) (hg : 0 ≤ g_val) (hk1 : 1 ≤ k) (hk2 : k < spec_bins) :
    ((spec_bins : ℤ) - 1 ≤ ⌊(k : ℚ) * (1 + (g_val - 0.5) * 0.4)⌋ →
        gender_shift spec_bins g_val org_spec k = org_spec k)
    ∧ (⌊(k : ℚ) * (1 + (g_val - 0.5) * 0.4)⌋ < (spec_bins : ℤ) - 1 →
        gender_shift spec_bins g_val org_spec k
          = (1 - ((k : ℚ) * (1 + (g_val - 0.5) * 0.4)
                - (⌊(k : ℚ) * (1 + (g_val - 0.5) * 0.4)⌋ : ℚ)))
              * org_spec (⌊(k : ℚ) * (1 + (g_val - 0.5) * 0.4)⌋).toNat
            + ((k : ℚ) * (1 + (g_val - 0.5) * 0.4)
                - (⌊(k : ℚ) * (1 + (g_val - 0.5) * 0.4)⌋ : ℚ))
              * org_spec ((⌊(k : ℚ) * (1 + (g_val - 0.5) * 0.4)⌋).toNat + 1)) := by
  have hsrc : (0 : ℚ) ≤ (k : ℚ) * (1 + (g_val - 0.5) * 0.4) := by
    have hkc : (0 : ℚ) ≤ (k : ℚ) := Nat.cast_nonneg k
    have hfac : (0 : ℚ) ≤ 1 + (g_val - 0.5) * 0.4 := by nlinarith
    exact mul_nonneg hkc hfac
  have he := gender_shift_eq spec_bins k g_val org_spec hk1 hk2
  rw [cTrunc_eq_floor _ hsrc] at he
  constructor
  · intro hcl
    rw [he, if_neg (not_lt.mpr hcl)]
  · intro hlt
    rw [he, if_pos hlt]

/-- C4 witness: `spec_bins = 5`, `gender = 1` (so `shift = 0.2`), bin
`k = 2`: `source_k = 2.4`, interpolating between bins 2 and 3 of the ramp
row `i ↦ i` gives `2.4`. -/
theorem formant_shift_resamples_witness :
    gender_shift 5 1 (fun i => (i : ℚ)) 2 = 2.4 := by
  have h := (formant_shift_resamples 5 1 (fun i => (i : ℚ)) 2
    (by norm_num) (by norm_num) (by norm_num)).2 (by decide)
  rw [h]
  decide

/-- C5: a gender curve identically `0.5` over all frames makes the
formant-shift step the identity on the envelope, bin for bin and exactly
(the shift is zero, the interpolation weight is zero, and the edge branch
returns the bin unchanged). -/
theorem gender_neutral_identity (spec_bins f0 j k : ℕ)
    (gender_curve : ℕ → ℚ) (org_spec : ℕ → ℚ)
    (hg : ∀ i, i < f0 → gender_curve i = 0.5) (hj : j < f0) :
    gender_shift spec_bins (gender_curve j) org_spec k = org_spec k := by
  rw [hg j hj]
  by_cases hk : 1 ≤ k ∧ k < spec_bins
  · have he := gender_shift_eq spec_bins k 0.5 org_spec hk.1 hk.2
    have h05 : ((0.5 : ℚ) - 0.5) * 0.4 = 0 := by norm_num
    simp only [h05, add_zero, mul_one] at he
    have hc : cTrunc ((k : ℚ)) = (k : ℤ) := by
      rw [cTrunc_eq_floor _ (Nat.cast_nonneg k)]
      exact Int.floor_natCast k
    rw [hc] at he
    simp only [Int.cast_natCast, sub_self, Int.toNat_natCast, one_mul, zero_mul,
      sub_zero, add_zero] at he
    rw [he]
    split
    · rfl
    · rfl
  · unfold gender_shift
    rw [if_neg hk]

/-- C5 witness: the identity applied at a concrete constant-0.5 curve. -/
theorem gender_neutral_identity_witness :
    gender_shift 4 ((fun _ => (0.5 : ℚ)) 0) (fun i => (i : ℚ)) 2
      = (fun i => (i : ℚ)) 2 :=
  gender_neutral_identity 4 3 0 2 (fun _ => (0.5 : ℚ)) (fun i => (i : ℚ))
    (by intro i _; rfl) (by norm_num)

/-- C6: the breath step computes
`min 1 (ap k + b * (k / spec_bins))` for every processed bin `k ≥ 1`;
consequently, for fixed aperiodicity input, a larger breath value never
decreases any shaped value, and no shaped value exceeds 1 (bin 0 is passed
through untouched, so its bound is the input-range invariant `ap 0 ≤ 1` of
the aperiodicity representation). -/
theorem breath_boost_monotone_clamped (spec_bins k : ℕ) (b b' : ℚ)
    (ap : ℕ → ℚ) (hb : b ≤ b') (h0 : ap 0 ≤ 1) (hk : k < spec_bins) :
    shape_ap spec_bins b ap k ≤ shape_ap spec_bins b' ap k
    ∧ shape_ap spec_bins b ap k ≤ 1
    ∧ (1 ≤ k →
        shape_ap spec_bins b ap k
          = min 1 (ap k + b * ((k : ℚ) / (spec_bins : ℚ)))) := by
  by_cases hk1 : 1 ≤ k
  · have hw : (0 : ℚ) ≤ (k : ℚ) / (spec_bins : ℚ) := by positivity
    simp only [shape_ap, breath_boost, if_pos (And.intro hk1 hk)]
    refine ⟨?_, min_le_left _ _, by simp⟩
    have hmul : b * ((k : ℚ) / (spec_bins : ℚ)) ≤ b' * ((k : ℚ) / (spec_bins : ℚ)) :=
      mul_le_mul_of_nonneg_right hb hw
    exact min_le_min le_rfl (by linarith)
  · have hk0 : k = 0 := by omega
    subst hk0
    have hng : ¬(1 ≤ 0 ∧ 0 < spec_bins) := by omega
    simp only [shape_ap, breath_boost, if_neg hng]
    exact ⟨le_rfl, h0, fun hc => absurd hc (by omega)⟩

/-- C6 witness: the breath theorem at concrete values
(`spec_bins = 4`, `k = 2`, breath raised from 0.2 to 0.6). -/
theorem breath_boost_monotone_clamped_witness :
    shape_ap 4 0.2 (fun _ => (0.5 : ℚ)) 2 ≤ shape_ap 4 0.6 (fun _ => (0.5 : ℚ)) 2
    ∧ shape_ap 4 0.2 (fun _ => (0.5 : ℚ)) 2 ≤ 1
    ∧ (1 ≤ 2 →
        shape_ap 4 0.2 (fun _ => (0.5 : ℚ)) 2
          = min 1 ((fun _ => (0.5 : ℚ)) 2 + 0.2 * ((2 : ℚ) / (4 : ℚ)))) :=
  breath_boost_monotone_clamped 4 2 0.2 0.6 (fun _ => (0.5 : ℚ))
    (by norm_num) (by norm_num) (by norm_num)

/-- C9: the shaping loop starts at frequency bin 1 (`vose_core.cpp` line
109), so for every frame the shaped envelope and aperiodicity agree with
their pre-shaping values at bin 0. -/
theorem shaping_skips_bin_zero (spec_bins : ℕ) (g_val t_val b_val : ℚ)
    (env ap : ℕ → ℚ) :
    shape_env spec_bins g_val t_val env 0 = env 0
    ∧ shape_ap spec_bins b_val ap 0 = ap 0 := by
  constructor
  · simp [shape_env, tension_scale, gender_shift]
  · simp [shape_ap, breath_boost]

/-- C7 (spec-modelled): starting from a cache with no entry for
`source_ref`, the first request invokes the analyzer and stores the result;
a second request for the same `source_ref` — even with a different
waveform, time axis or analyzer — returns the stored pair unchanged and
leaves the cache untouched: the analyzer runs exactly once per
`source_ref`, and the cache key is `source_ref` only. -/
theorem analysis_cache_single_invocation (cache : AnalysisCache)
    (source_ref : String) (wav1 ta1 wav2 ta2 : List ℚ)
    (analyzer1 analyzer2 : List ℚ → List ℚ → List (List ℚ) × List (List ℚ))
    (h : cache.lookup source_ref = none) :
    (get_or_compute cache source_ref wav1 ta1 analyzer1).1 = analyzer1 wav1 ta1
    ∧ (get_or_compute cache source_ref wav1 ta1 analyzer1).2.lookup source_ref
        = some (analyzer1 wav1 ta1)
    ∧ get_or_compute (get_or_compute cache source_ref wav1 ta1 analyzer1).2
          source_ref wav2 ta2 analyzer2
        = ((get_or_compute cache source_ref wav1 ta1 analyzer1).1,
            (get_or_compute cache source_ref wav1 ta1 analyzer1).2) := by
  simp [get_or_compute, h, List.lookup]

/-- C7 witness: a concrete empty-cache double request; the second request
returns the first result even though its waveform, time axis and analyzer
all differ. -/
theorem analysis_cache_single_invocation_witness :
    get_or_compute
        (get_or_compute ([] : AnalysisCache) "a" [1] [0] analyzerA).2
        "a" [2] [9] analyzerB
      = ((get_or_compute ([] : AnalysisCache) "a" [1] [0] analyzerA).1,
          (get_or_compute ([] : AnalysisCache) "a" [1] [0] analyzerA).2) :=
  (analysis_cache_single_invocation [] "a" [1] [0] [2] [9]
    analyzerA analyzerB rfl).2.2

/-- C8 (code-bug evidence): `mismatched_note` has a gender curve of one
element against a two-frame pitch curve.  The render performs no
curve-length check: its loop reads the curves at every frame index below
`pitch_length`, so the frame-1 gender read lies beyond the curve's last
element (`none` — an out-of-bounds pointer read in C), and the note is
still synthesized in full rather than skipped; `execute_render` reports
no error of any kind (its C signature returns `void`). -/
theorem curve_mismatch_read_out_of_bounds :
    mismatched_note.gender_curve.length < mismatched_note.pitch_length.toNat
    ∧ (curve_reads mismatched_note).get? 1 = some (none, some 0.5, some 0)
    ∧ execute_render demo_db demo_synth [mismatched_note]
        = some (List.replicate 221 1) := by
  refine ⟨by decide, by decide, ?_⟩
  decide

/-- C10: `load_embedded_resource` leaves the voice database unchanged on a
null phoneme, a null sample pointer, or a non-positive sample count; a
valid call stores under the phoneme key exactly `sample_count` samples,
sample `i` being the `int16` input `raw[i]` divided by 32768 — hence every
stored sample lies in `[-1, 1)`. -/
theorem load_embedded_resource_spec (p : String) (raw : List ℤ)
    (c cbad : ℤ) (db : VoiceDb)
    (hbad : cbad ≤ 0) (hc : 0 < c) (hclen : c ≤ (raw.length : ℤ))
    (hrange : ∀ v ∈ raw, -32768 ≤ v ∧ v < 32768) :
    load_embedded_resource none (some raw) c db = db
    ∧ load_embedded_resource (some p) none c db = db
    ∧ load_embedded_resource (some p) (some raw) cbad db = db
    ∧ load_embedded_resource (some p) (some raw) c db p
        = some { waveform := (List.range c.toNat).map
                   fun i => ((raw.getD i 0 : ℚ)) / 32768
                 fs := 44100 }
    ∧ ((List.range c.toNat).map fun i => ((raw.getD i 0 : ℚ)) / 32768).length
        = c.toNat
    ∧ ∀ x ∈ (List.range c.toNat).map fun i => ((raw.getD i 0 : ℚ)) / 32768,
        -1 ≤ x ∧ x < 1 := by
  refine ⟨rfl, rfl, ?_, ?_, by simp, ?_⟩
  · simp [load_embedded_resource, hbad]
  · simp [load_embedded_resource, not_le.mpr hc, le_of_lt]
  · intro x hx
    rcases List.mem_map.mp hx with ⟨i, hi, rfl⟩
    have hilt : i < raw.length := by
      have := List.mem_range.mp hi
      omega
    have hmem : raw.getD i 0 ∈ raw := by
      rw [List.getD_eq_getElem raw 0 hilt]
      exact List.getElem_mem hilt
    have hb := hrange _ hmem
    constructor
    · rw [le_div_iff₀ (by norm_num : (0 : ℚ) < 32768)]
      have : (-32768 : ℚ) ≤ (raw.getD i 0 : ℚ) := by exact_mod_cast hb.1
      linarith
    · rw [div_lt_iff₀ (by norm_num : (0 : ℚ) < 32768)]
      have : ((raw.getD i 0 : ℚ)) < 32768 := by exact_mod_cast hb.2
      linarith

/-- C10 witness: loading three samples spanning the full `int16` range into
the empty store yields exactly the three normalized samples. -/
theorem load_embedded_resource_spec_witness :
    load_embedded_resource (some "a") (some [-32768, 0, 32767]) 3 emptyDb "a"
      = some { waveform := [-1, 0, 32767 / 32768], fs := 44100 } := by
  have h := load_embedded_resource_spec "a" [-32768, 0, 32767] 3 (-1) emptyDb
    (by norm_num) (by norm_num) (by decide) (by decide)
  rw [h.2.2.2.1]
  decide
